import Mathlib

/-!
Verification of the indexer service: a shallow embedding of its relation
store, job queue, search pagination and indexing pipeline, with theorems
settling the specified properties against the embedded code.

Conventions of the embedding:
- Postgres tables are lists of rows; SQL statements become list transforms.
- Timestamps are natural numbers (microseconds); Go durations are integers
  in nanoseconds, converted by the micros function exactly as the source does.
- Go int64 arithmetic that can overflow is modelled with an explicit wrap
  into the signed 64 bit range.
- Transactions are modelled with an explicit snapshot so that a rollback
  restores the pre-transaction table.
-/

namespace Indexer

/-- A resource reference: a type and an id, as in model.Resource. -/
structure Resource where
  type : String
  id : String
deriving DecidableEq, Repr

/-- A directed parent to child relation row, as in store.Relation and the
relations table of pg_schema.sql (ignoring the surrogate serial key). -/
structure Relation where
  parent : Resource
  child : Resource
deriving DecidableEq, Repr

namespace Store

/-- One INSERT ... ON CONFLICT DO NOTHING against the relations table: the
UNIQUE constraint on (resource, resource_id, related_resource,
related_resource_id) makes a duplicate row a silent no-op. -/
def insertOnConflictDoNothing (t : List Relation) (r : Relation) : List Relation :=
  if r ∈ t then t else t ++ [r]

/-- PostgresStore.addRelationsBatch: an empty batch returns immediately,
otherwise every relation is inserted with conflicts ignored. -/
def addRelationsBatch (t : List Relation) (relations : List Relation) : List Relation :=
  if relations.isEmpty then t else relations.foldl insertOnConflictDoNothing t

/-- PostgresStore.AddRelations delegates to addRelationsBatch. -/
def AddRelations (t : List Relation) (relations : List Relation) : List Relation :=
  addRelationsBatch t relations

/-- The DELETE of PostgresStore.removeResource: removes every row whose
resource columns (the parent side) equal the given resource. -/
def removeResourceRows (t : List Relation) (r : Resource) : List Relation :=
  t.filter (fun rel => !(rel.parent == r))

/-- PostgresStore.RemoveResource runs removeResource against the pool. -/
def RemoveResource (t : List Relation) (r : Resource) : List Relation :=
  removeResourceRows t r

/-- PostgresStore.GetChildResources: the related columns of every row whose
resource columns equal the given parent. -/
def GetChildResources (t : List Relation) (p : Resource) : List Resource :=
  (t.filter (fun rel => rel.parent == p)).map Relation.child

/-- An open transaction: the snapshot it began from and the uncommitted
working state. Rollback restores the snapshot, commit keeps the work. -/
structure PgTx where
  snapshot : List Relation
  current : List Relation

/-- Begin a transaction on the current table. -/
def txBegin (t : List Relation) : PgTx :=
  { snapshot := t, current := t }

/-- Rolling back discards the uncommitted work. -/
def txRollback (tx : PgTx) : List Relation :=
  tx.snapshot

/-- Committing keeps the uncommitted work. -/
def txCommit (tx : PgTx) : List Relation :=
  tx.current

/-- PostgresStore.SetRelations, line by line: begin a transaction with a
deferred rollback, delete the parent side rows of the resource inside the
transaction, and if the related list is empty return nil right there, so
that the deferred rollback fires and the delete is never committed.
Otherwise insert the new children and commit. -/
def SetRelations (t : List Relation) (resource : Resource) (relatedResources : List Resource) : List Relation :=
  let tx := txBegin t
  let tx := { tx with current := removeResourceRows tx.current resource }
  if relatedResources.isEmpty then
    txRollback tx
  else
    let relations := relatedResources.map (fun rr => { parent := resource, child := rr })
    txCommit { tx with current := addRelationsBatch tx.current relations }

/-- MemoryStore keeps a map from a child resource to the list of its
parents; we embed it as an association list. -/
abbrev MemStore : Type :=
  List (Resource × List Resource)

/-- MemoryStore.RemoveResource: delete(s.relations, resource), removing the
map entry whose key is the resource. The map is keyed by the child. -/
def memRemoveResource (m : MemStore) (r : Resource) : MemStore :=
  m.filter (fun kv => !(kv.1 == r))

/-- The set of parent to child relations represented by a MemoryStore
state: the key of an entry is the child, each listed resource a parent. -/
def memRelations (m : MemStore) : List Relation :=
  m.foldr (fun kv acc => kv.2.map (fun p => { parent := p, child := kv.1 }) ++ acc) []

end Store

end Indexer

namespace Indexer.Store

theorem mem_insertOnConflictDoNothing_of_mem {t : List Relation} {r s : Relation}
    (h : r ∈ t) : r ∈ insertOnConflictDoNothing t s := by
  unfold insertOnConflictDoNothing
  split
  · exact h
  · exact List.mem_append_left _ h

theorem self_mem_insertOnConflictDoNothing (t : List Relation) (s : Relation) :
    s ∈ insertOnConflictDoNothing t s := by
  unfold insertOnConflictDoNothing
  split
  · assumption
  · exact List.mem_append_right _ (List.mem_singleton.mpr rfl)

theorem insertOnConflictDoNothing_of_mem {t : List Relation} {s : Relation}
    (h : s ∈ t) : insertOnConflictDoNothing t s = t := by
  unfold insertOnConflictDoNothing
  simp [h]

theorem mem_foldl_insert_of_mem {X : List Relation} {t : List Relation} {r : Relation}
    (h : r ∈ t) : r ∈ X.foldl insertOnConflictDoNothing t := by
  induction X generalizing t with
  | nil => exact h
  | cons x xs ih => exact ih (mem_insertOnConflictDoNothing_of_mem h)

theorem mem_foldl_insert_of_mem_batch {X : List Relation} {t : List Relation} {r : Relation}
    (h : r ∈ X) : r ∈ X.foldl insertOnConflictDoNothing t := by
  induction X generalizing t with
  | nil => cases h
  | cons x xs ih =>
    simp only [List.foldl_cons]
    rcases List.mem_cons.mp h with h1 | h2
    · subst h1
      exact mem_foldl_insert_of_mem (self_mem_insertOnConflictDoNothing t r)
    · exact ih h2

theorem foldl_insert_noop {X : List Relation} {t : List Relation}
    (h : ∀ r ∈ X, r ∈ t) : X.foldl insertOnConflictDoNothing t = t := by
  induction X with
  | nil => rfl
  | cons x xs ih =>
    have hx : x ∈ t := h x (List.mem_cons_self x xs)
    simp only [List.foldl_cons, insertOnConflictDoNothing_of_mem hx]
    exact ih (fun r hr => h r (List.mem_cons_of_mem x hr))

theorem nodup_insertOnConflictDoNothing {t : List Relation} {s : Relation}
    (h : t.Nodup) : (insertOnConflictDoNothing t s).Nodup := by
  unfold insertOnConflictDoNothing
  split
  · exact h
  · rename_i hmem
    simp only [List.nodup_append, List.nodup_singleton, true_and]
    refine ⟨h, ?_⟩
    intro a hat has
    rw [List.mem_singleton] at has
    subst has
    exact hmem hat

theorem nodup_foldl_insert {X : List Relation} {t : List Relation}
    (h : t.Nodup) : (X.foldl insertOnConflictDoNothing t).Nodup := by
  induction X generalizing t with
  | nil => exact h
  | cons x xs ih => exact ih (nodup_insertOnConflictDoNothing h)

theorem mem_batch_mem_result {X : List Relation} {t : List Relation} {r : Relation}
    (h : r ∈ X) : r ∈ addRelationsBatch t X := by
  unfold addRelationsBatch
  split
  · rename_i he
    rw [List.isEmpty_iff] at he
    subst he
    cases h
  · exact mem_foldl_insert_of_mem_batch h

theorem mem_table_mem_result {X : List Relation} {t : List Relation} {r : Relation}
    (h : r ∈ t) : r ∈ addRelationsBatch t X := by
  unfold addRelationsBatch
  split
  · exact h
  · exact mem_foldl_insert_of_mem h

/-- C7: adding a batch of relations is idempotent and deduplicating: a
second identical call changes nothing, an empty batch is a no-op, the
uniqueness invariant of the table is preserved, and inserting a relation
that is already present is silently ignored. -/
theorem addRelations_idempotent_dedup (X t : List Relation) :
    addRelationsBatch (addRelationsBatch t X) X = addRelationsBatch t X
    ∧ addRelationsBatch t [] = t
    ∧ (t.Nodup → (addRelationsBatch t X).Nodup)
    ∧ (∀ r ∈ t, addRelationsBatch t [r] = t) := by
  refine ⟨?_, rfl, ?_, ?_⟩
  · unfold addRelationsBatch
    split
    · rfl
    · exact foldl_insert_noop (fun r hr => mem_foldl_insert_of_mem_batch hr)
  · intro hnd
    unfold addRelationsBatch
    split
    · exact hnd
    · exact nodup_foldl_insert hnd
  · intro r hr
    unfold addRelationsBatch
    simp only [List.isEmpty_cons, List.foldl_cons, List.foldl_nil]
    rw [insertOnConflictDoNothing_of_mem hr]
    rfl

/-- Witness for C7 at a concrete table and batch. -/
theorem addRelations_idempotent_dedup_witness :
    ([⟨⟨"a", "1"⟩, ⟨"b", "2"⟩⟩] : List Relation).Nodup
    ∧ (addRelationsBatch (addRelationsBatch [⟨⟨"a", "1"⟩, ⟨"b", "2"⟩⟩] [⟨⟨"a", "1"⟩, ⟨"b", "3"⟩⟩]) [⟨⟨"a", "1"⟩, ⟨"b", "3"⟩⟩]
        = addRelationsBatch [⟨⟨"a", "1"⟩, ⟨"b", "2"⟩⟩] [⟨⟨"a", "1"⟩, ⟨"b", "3"⟩⟩]
      ∧ addRelationsBatch [⟨⟨"a", "1"⟩, ⟨"b", "2"⟩⟩] [] = [⟨⟨"a", "1"⟩, ⟨"b", "2"⟩⟩]
      ∧ (([⟨⟨"a", "1"⟩, ⟨"b", "2"⟩⟩] : List Relation).Nodup →
          (addRelationsBatch [⟨⟨"a", "1"⟩, ⟨"b", "2"⟩⟩] [⟨⟨"a", "1"⟩, ⟨"b", "3"⟩⟩]).Nodup)
      ∧ (∀ r ∈ ([⟨⟨"a", "1"⟩, ⟨"b", "2"⟩⟩] : List Relation),
          addRelationsBatch [⟨⟨"a", "1"⟩, ⟨"b", "2"⟩⟩] [r] = [⟨⟨"a", "1"⟩, ⟨"b", "2"⟩⟩])) :=
  ⟨by decide, addRelations_idempotent_dedup [⟨⟨"a", "1"⟩, ⟨"b", "3"⟩⟩] [⟨⟨"a", "1"⟩, ⟨"b", "2"⟩⟩]⟩

/-- C2: evaluating SetRelations with an empty children list on a table that
holds one relation of the parent. The function returns success, but the
early return skips the commit, the deferred rollback fires, and the delete
is discarded: the table is unchanged and get_children still returns the old
child, contradicting the specified postcondition of an empty result. -/
theorem setRelations_empty_children_rolls_back :
    SetRelations [⟨⟨"a", "1"⟩, ⟨"b", "9"⟩⟩] ⟨"a", "1"⟩ [] = [⟨⟨"a", "1"⟩, ⟨"b", "9"⟩⟩]
    ∧ GetChildResources (SetRelations [⟨⟨"a", "1"⟩, ⟨"b", "9"⟩⟩] ⟨"a", "1"⟩ []) ⟨"a", "1"⟩
        = [⟨"b", "9"⟩] := by
  constructor
  · rfl
  · rfl

/-- C8 counterexample: on the store state with relations (a1 parent of r1)
and (r1 parent of b1), the in-memory store, whose map is keyed by the
child, removes the relation in which r1 is the child when RemoveResource r1
is called, while the Postgres store keeps it and removes the parent-side
row instead. So the two implementations disagree and the in-memory one does
not leave child-side relations untouched. -/
theorem removeResource_memory_vs_pg_counterexample :
    (⟨⟨"a", "1"⟩, ⟨"r", "1"⟩⟩ : Relation) ∈ memRelations [(⟨"r", "1"⟩, [⟨"a", "1"⟩]), (⟨"b", "1"⟩, [⟨"r", "1"⟩])]
    ∧ (⟨⟨"a", "1"⟩, ⟨"r", "1"⟩⟩ : Relation) ∉ memRelations (memRemoveResource [(⟨"r", "1"⟩, [⟨"a", "1"⟩]), (⟨"b", "1"⟩, [⟨"r", "1"⟩])] ⟨"r", "1"⟩)
    ∧ (⟨⟨"a", "1"⟩, ⟨"r", "1"⟩⟩ : Relation) ∈ RemoveResource [⟨⟨"a", "1"⟩, ⟨"r", "1"⟩⟩, ⟨⟨"r", "1"⟩, ⟨"b", "1"⟩⟩] ⟨"r", "1"⟩
    ∧ (⟨⟨"r", "1"⟩, ⟨"b", "1"⟩⟩ : Relation) ∉ RemoveResource [⟨⟨"a", "1"⟩, ⟨"r", "1"⟩⟩, ⟨⟨"r", "1"⟩, ⟨"b", "1"⟩⟩] ⟨"r", "1"⟩ := by
  decide

theorem mem_memRelations_iff {m : MemStore} {rel : Relation} :
    rel ∈ memRelations m ↔ ∃ kv ∈ m, kv.1 = rel.child ∧ rel.parent ∈ kv.2 := by
  induction m with
  | nil => simp [memRelations]
  | cons kv kvs ih =>
    unfold memRelations at ih ⊢
    simp only [List.foldr_cons, List.mem_append, List.mem_map, List.mem_cons, ih]
    constructor
    · rintro (⟨p, hp, hrel⟩ | ⟨kv2, hkv2, h1, h2⟩)
      · exact ⟨kv, Or.inl rfl, by rw [← hrel], by rw [← hrel]; exact hp⟩
      · exact ⟨kv2, Or.inr hkv2, h1, h2⟩
    · rintro ⟨kv2, hkv2 | hkv2, h1, h2⟩
      · subst hkv2
        exact Or.inl ⟨rel.parent, h2, by rw [h1]⟩
      · exact Or.inr ⟨kv2, hkv2, h1, h2⟩

/-- C8 amended: the Postgres store removes exactly the relations in which
the resource is the parent, keeping the child side; the in-memory store
removes exactly the relations in which the resource is the child, keeping
the parent side. The two implementations therefore do not agree. -/
theorem removeResource_parent_vs_child_side (t : List Relation) (m : MemStore) (r : Resource) (rel : Relation) :
    (rel ∈ RemoveResource t r ↔ rel ∈ t ∧ rel.parent ≠ r)
    ∧ (rel ∈ memRelations (memRemoveResource m r) ↔ rel ∈ memRelations m ∧ rel.child ≠ r) := by
  constructor
  · unfold RemoveResource removeResourceRows
    simp [List.mem_filter]
  · unfold memRemoveResource
    simp only [mem_memRelations_iff, List.mem_filter, Bool.not_eq_eq_eq_not, Bool.not_true,
      beq_eq_false_iff_ne, ne_eq]
    constructor
    · rintro ⟨kv, ⟨hkv, hne⟩, h1, h2⟩
      exact ⟨⟨kv, hkv, h1, h2⟩, by rw [← h1]; exact hne⟩
    · rintro ⟨⟨kv, hkv, h1, h2⟩, hne⟩
      exact ⟨kv, ⟨hkv, by rw [h1]; exact hne⟩, h1, h2⟩

end Indexer.Store

namespace Indexer.App

/-- The page size clamp at the top of App.Search: a missing or
non-positive page_size becomes 25, anything above 100 becomes 100. -/
def searchEffectivePageSize (reqPageSize : Int) : Int :=
  let pageSize := if reqPageSize ≤ 0 then 25 else reqPageSize
  if pageSize > 100 then 100 else pageSize

/-- The page clamp of App.Search: negative pages become 0. -/
def searchEffectivePage (reqPage : Int) : Int :=
  if reqPage < 0 then 0 else reqPage

/-- The query window App.Search sends to the search backend: from is
page times pageSize and size is pageSize. -/
def searchPageWindow (reqPageSize reqPage : Int) : Int × Int :=
  (searchEffectivePage reqPage * searchEffectivePageSize reqPageSize,
   searchEffectivePageSize reqPageSize)

/-- C9: the effective page size always lands in the interval from 1 to
100, equals 25 exactly when page_size is unset or non-positive and is the
requested value clamped to 100 otherwise; the effective page is never
negative and is the requested page when that is non-negative; the window
sent to the backend is from equal to page times page_size with size equal
to page_size. -/
theorem search_pagination_clamped (reqPageSize reqPage : Int) :
    1 ≤ searchEffectivePageSize reqPageSize
    ∧ searchEffectivePageSize reqPageSize ≤ 100
    ∧ searchEffectivePageSize reqPageSize
        = (if reqPageSize ≤ 0 then 25 else min reqPageSize 100)
    ∧ 0 ≤ searchEffectivePage reqPage
    ∧ searchEffectivePage reqPage = max reqPage 0
    ∧ searchPageWindow reqPageSize reqPage
        = (searchEffectivePage reqPage * searchEffectivePageSize reqPageSize,
           searchEffectivePageSize reqPageSize) := by
  unfold searchPageWindow searchEffectivePageSize searchEffectivePage
  dsimp only
  refine ⟨?_, ?_, ?_, ?_, ?_, rfl⟩
  · split_ifs <;> omega
  · split_ifs <;> omega
  · simp only [Int.min_def]
    split_ifs <;> omega
  · split_ifs <;> omega
  · simp only [Int.max_def]
    split_ifs <;> omega

end Indexer.App

namespace Indexer.Jobqueue

/-- Job status values, as in jobqueue.JobStatus. -/
inductive JobStatus where
  | queued
  | running
  | succeeded
  | failed
  | dead
deriving DecidableEq, Repr

/-- The column defaults of the jobs table in the queue schema: attempts
defaults to 0 and max_attempts defaults to 25. -/
def jobsSchemaDefaultAttempts : Int := 0

/-- The max_attempts column default declared by the jobs table schema. -/
def jobsSchemaDefaultMaxAttempts : Int := 25

/-- jobqueue.EnqueueOptions. A missing options pointer is modelled by
passing none for the whole structure. -/
structure EnqueueOptions where
  runAfter : Option Nat
  maxAttempts : Option Int
deriving DecidableEq, Repr

/-- The row Enqueue inserts into the jobs table, restricted to the columns
the statement names plus the attempts column the schema fills. -/
structure JobRow where
  jobGroup : String
  jobType : String
  runAfter : Nat
  status : JobStatus
  attempts : Int
  maxAttempts : Int
deriving DecidableEq, Repr

/-- The value computation of Queue.Enqueue: run_after is now unless the
options carry one, and max_attempts starts at 0 and is only replaced when
the options carry one, so the INSERT always names the max_attempts column
and the schema default never applies. -/
def enqueueJobRow (now : Nat) (jobGroup jobType : String) (opts : Option EnqueueOptions) : JobRow :=
  let runAfter :=
    match opts with
    | some o => match o.runAfter with | some t => t | none => now
    | none => now
  let maxAttempts :=
    match opts with
    | some o => match o.maxAttempts with | some m => m | none => 0
    | none => 0
  { jobGroup := jobGroup, jobType := jobType, runAfter := runAfter,
    status := JobStatus.queued, attempts := jobsSchemaDefaultAttempts,
    maxAttempts := maxAttempts }

/-- C5: evaluating the insert of Queue.Enqueue. With no options the row is
queued with run_after now and attempts 0 as the claim says, but its
max_attempts is the literal 0 supplied by the INSERT, not the schema
default of 25, so a job enqueued with no options does get max_attempts 0;
when options carry the values they are used. -/
theorem enqueue_no_opts_inserts_zero_max_attempts :
    (enqueueJobRow 5 "a|1" "create" none).status = JobStatus.queued
    ∧ (enqueueJobRow 5 "a|1" "create" none).runAfter = 5
    ∧ (enqueueJobRow 5 "a|1" "create" none).attempts = 0
    ∧ (enqueueJobRow 5 "a|1" "create" none).maxAttempts = 0
    ∧ (enqueueJobRow 5 "a|1" "create" (some { runAfter := some 9, maxAttempts := some 3 })).runAfter = 9
    ∧ (enqueueJobRow 5 "a|1" "create" (some { runAfter := some 9, maxAttempts := some 3 })).maxAttempts = 3
    ∧ jobsSchemaDefaultMaxAttempts = 25
    ∧ (enqueueJobRow 5 "a|1" "create" none).maxAttempts ≠ jobsSchemaDefaultMaxAttempts := by
  decide

/-- The visible state of the two queue tables touched by Enqueue. -/
structure QueueState where
  groups : List String
  jobs : List JobRow
deriving DecidableEq, Repr

/-- The first statement of Enqueue: INSERT INTO job_groups ... ON CONFLICT
DO NOTHING, executed on the pool, so it commits on its own. -/
def upsertJobGroup (s : QueueState) (jobGroup : String) : QueueState :=
  if jobGroup ∈ s.groups then s else { s with groups := s.groups ++ [jobGroup] }

/-- The second statement of Enqueue: INSERT INTO jobs, also executed on
the pool as its own implicit transaction. -/
def insertJobRow (s : QueueState) (row : JobRow) : QueueState :=
  { s with jobs := s.jobs ++ [row] }

/-- Queue.Enqueue issues the group upsert and the job insert as two
separate auto-committed pool calls; no transaction spans them. The
insertFails flag injects a failure of the second statement (for example a
dropped connection): the state it leaves behind still contains the effect
of the first statement. The boolean result is whether Enqueue succeeded. -/
def Enqueue (s : QueueState) (now : Nat) (jobGroup jobType : String)
    (opts : Option EnqueueOptions) (insertFails : Bool) : QueueState × Bool :=
  let s1 := upsertJobGroup s jobGroup
  if insertFails then (s1, false)
  else (insertJobRow s1 (enqueueJobRow now jobGroup jobType opts), true)

/-- C6 counterexample: starting from empty tables, a run of Enqueue whose
jobs insert fails returns an error yet leaves the job_groups row
committed with no jobs row, so one of the two statements committed
without the other. -/
theorem enqueue_lone_group_commit_counterexample :
    (Enqueue { groups := [], jobs := [] } 0 "a|1" "create" none true).1.groups = ["a|1"]
    ∧ (Enqueue { groups := [], jobs := [] } 0 "a|1" "create" none true).1.jobs = []
    ∧ (Enqueue { groups := [], jobs := [] } 0 "a|1" "create" none true).2 = false := by
  decide

/-- C6 amended: the group upsert and the job insert are two separately
committed statements. After a failing run the group row is present and
the jobs table is untouched; after a successful run the group row is
present and exactly the new jobs row was appended. -/
theorem enqueue_two_separate_statements (s : QueueState) (now : Nat)
    (jobGroup jobType : String) (opts : Option EnqueueOptions) :
    jobGroup ∈ (Enqueue s now jobGroup jobType opts true).1.groups
    ∧ (Enqueue s now jobGroup jobType opts true).1.jobs = s.jobs
    ∧ (Enqueue s now jobGroup jobType opts true).2 = false
    ∧ jobGroup ∈ (Enqueue s now jobGroup jobType opts false).1.groups
    ∧ (Enqueue s now jobGroup jobType opts false).1.jobs
        = s.jobs ++ [enqueueJobRow now jobGroup jobType opts]
    ∧ (Enqueue s now jobGroup jobType opts false).2 = true := by
  unfold Enqueue insertJobRow upsertJobGroup
  by_cases h : jobGroup ∈ s.groups <;> simp [h]

end Indexer.Jobqueue

namespace Indexer.Jobqueue

/-- A row of the jobs table as the worker sees it (jobqueue.Job), with
uuids and worker ids abstracted to naturals and timestamps in
microseconds. -/
structure Job where
  id : Nat
  orderingSeq : Nat
  runAfter : Nat
  status : JobStatus
  attempts : Int
  maxAttempts : Int
  lockedBy : Option Nat
  lockedUntil : Option Nat
  startedAt : Option Nat
  finishedAt : Option Nat
  lastError : Option String
deriving DecidableEq, Repr

/-- The database state relevant to one job group: the clock, the group row
lock columns, and the jobs of the group. -/
structure GroupState where
  time : Nat
  glockedBy : Option Nat
  glockedUntil : Option Nat
  jobs : List Job
deriving DecidableEq, Repr

/-- Wrap an integer into the signed 64 bit range, the way Go int64
arithmetic does. -/
def wrap64 (x : Int) : Int :=
  (x + 2 ^ 63) % 2 ^ 64 - 2 ^ 63

/-- Go left shift on int64: the value is multiplied by a power of two and
wrapped into the signed 64 bit range. -/
def goShiftLeft64 (x : Int) (n : Nat) : Int :=
  wrap64 (x * 2 ^ n)

/-- One second in nanoseconds, the base of defaultBackoff. -/
def oneSecondNs : Int := 1000000000

/-- Five minutes in nanoseconds, the cap of defaultBackoff. -/
def fiveMinutesNs : Int := 300000000000

/-- jobqueue.defaultBackoff: the base shifted left by attempt minus one
(a Go int64 shift), returned as is unless it exceeds the cap. -/
def defaultBackoff (attempt : Int) : Int :=
  let d := goShiftLeft64 oneSecondNs (attempt - 1).toNat
  if d > fiveMinutesNs then fiveMinutesNs else d

/-- jobqueue.micros: non-positive durations become zero, positive ones are
converted from nanoseconds to whole microseconds. -/
def micros (d : Int) : Int :=
  if d ≤ 0 then 0 else d / 1000

/-- The shape of the error a handler returned, as finish inspects it: the
message, whether errors.As finds a RetryError (and its After delay in
nanoseconds), whether errors.As finds a PermanentError, and whether
errors.Is matches context.Canceled. -/
structure RunError where
  msg : String
  retryAfter : Option Int
  isPermanent : Bool
  isCanceled : Bool
deriving DecidableEq, Repr

/-- jobqueue.truncErr: the error text capped at 2000 characters with an
ellipsis appended when truncation happened. -/
def truncErr (e : RunError) : String :=
  if e.msg.length > 2000 then (e.msg.take 2000) ++ "…" else e.msg

/-- The group lease check used by claimNextJobInGroup and finish: locked_by
is this worker and locked_until is set and not in the past. -/
def groupLeaseHeld (w : Nat) (s : GroupState) : Bool :=
  s.glockedBy == some w
    && (match s.glockedUntil with
        | some u => decide (s.time ≤ u)
        | none => false)

/-- The WHERE clause guarding every finalizing UPDATE of finish: the row of
this job id, still locked by this worker, still running. -/
def gateMatches (w : Nat) (jobId : Nat) (k : Job) : Bool :=
  k.id == jobId && k.lockedBy == some w && k.status == JobStatus.running

/-- The outcome finish reports to the worker loop. -/
inductive FinOutcome where
  | ok
  | leaseLost
deriving DecidableEq, Repr

/-- jobqueue.finish, step by step. The group lease is re-checked first; a
nil run error marks the job succeeded; otherwise the disposition is
computed: a RetryError sets an explicit delay, a PermanentError sets the
permanent flag, and a context cancellation overrides both with a zero
delay and a cleared permanent flag. The job dies when the permanent flag
is set or the attempts recorded at claim time reached max_attempts; else
it is requeued after the explicit delay or the default backoff. Every
update is gated on the job row still being running and locked by this
worker; zero affected rows mean the lease was lost. -/
def finish (w : Nat) (job : Job) (runErr : Option RunError) (s : GroupState) : GroupState × FinOutcome :=
  if !(groupLeaseHeld w s) then (s, FinOutcome.leaseLost)
  else
    match runErr with
    | none =>
      if s.jobs.any (gateMatches w job.id) then
        ({ s with jobs := s.jobs.map (fun k =>
            if gateMatches w job.id k then
              { k with status := JobStatus.succeeded, finishedAt := some s.time,
                       lockedUntil := none }
            else k) }, FinOutcome.ok)
      else (s, FinOutcome.leaseLost)
    | some e =>
      let retryAfter := if e.isCanceled then some (0 : Int) else e.retryAfter
      let permanent := if e.isCanceled then false else e.isPermanent
      if permanent || job.maxAttempts ≤ job.attempts then
        if s.jobs.any (gateMatches w job.id) then
          ({ s with jobs := s.jobs.map (fun k =>
              if gateMatches w job.id k then
                { k with status := JobStatus.dead, finishedAt := some s.time,
                         lastError := some (truncErr e), lockedUntil := none }
              else k) }, FinOutcome.ok)
        else (s, FinOutcome.leaseLost)
      else
        let delay := match retryAfter with
          | some d => d
          | none => defaultBackoff job.attempts
        if s.jobs.any (gateMatches w job.id) then
          ({ s with jobs := s.jobs.map (fun k =>
              if gateMatches w job.id k then
                { k with status := JobStatus.queued, lockedBy := none,
                         lockedUntil := none, lastError := some (truncErr e),
                         runAfter := s.time + (micros delay).toNat }
              else k) }, FinOutcome.ok)
        else (s, FinOutcome.leaseLost)

theorem defaultBackoff_eq_min (attempt : Int) :
    defaultBackoff attempt
      = min (goShiftLeft64 oneSecondNs (attempt - 1).toNat) fiveMinutesNs := by
  unfold defaultBackoff
  dsimp only
  rw [Int.min_def]
  split_ifs <;> omega

theorem finish_fail_dead_eq (w : Nat) (job : Job) (e : RunError) (s : GroupState)
    (hlease : groupLeaseHeld w s = true)
    (hany : s.jobs.any (gateMatches w job.id) = true)
    (hcond : ((if e.isCanceled then false else e.isPermanent)
        || decide (job.maxAttempts ≤ job.attempts)) = true) :
    (finish w job (some e) s).1.jobs
      = s.jobs.map (fun k =>
          if gateMatches w job.id k then
            { k with status := JobStatus.dead, finishedAt := some s.time,
                     lastError := some (truncErr e), lockedUntil := none }
          else k) := by
  unfold finish
  rw [hlease]
  simp only [Bool.not_true, Bool.false_eq_true, if_false, hcond, eq_self_iff_true,
    if_true, hany]

theorem finish_fail_requeue_eq (w : Nat) (job : Job) (e : RunError) (s : GroupState)
    (hlease : groupLeaseHeld w s = true)
    (hany : s.jobs.any (gateMatches w job.id) = true)
    (hcond : ((if e.isCanceled then false else e.isPermanent)
        || decide (job.maxAttempts ≤ job.attempts)) = false) :
    (finish w job (some e) s).1.jobs
      = s.jobs.map (fun k =>
          if gateMatches w job.id k then
            { k with status := JobStatus.queued, lockedBy := none, lockedUntil := none,
                     lastError := some (truncErr e),
                     runAfter := s.time
                       + (micros (match (if e.isCanceled then some (0 : Int) else e.retryAfter) with
                           | some d => d
                           | none => defaultBackoff job.attempts)).toNat }
          else k) := by
  unfold finish
  rw [hlease]
  simp only [Bool.not_true, Bool.false_eq_true, if_false, hcond, eq_self_iff_true,
    if_true, hany]

end Indexer.Jobqueue

namespace Indexer.Jobqueue

/-- C3: finalizing a failed, non-cancelled handler run. If the error
carries the permanent marker or the attempts recorded at claim time have
reached max_attempts, the job row becomes dead with finished_at set and
the truncated error text. Otherwise a retry-after marker requeues the row
with run_after equal to now plus that delay, and with no marker the row is
requeued with the default backoff, which is the minimum of one second
shifted left by attempts minus one (as a Go int64 shift) and the five
minute cap. -/
theorem finish_failure_disposition (w : Nat) (job : Job) (e : RunError) (s : GroupState) (j : Job)
    (hlease : groupLeaseHeld w s = true)
    (hcancel : e.isCanceled = false)
    (hmem : j ∈ s.jobs) (hgate : gateMatches w job.id j = true) :
    (e.isPermanent = true ∨ job.maxAttempts ≤ job.attempts →
      { j with status := JobStatus.dead, finishedAt := some s.time,
               lastError := some (truncErr e), lockedUntil := none }
        ∈ (finish w job (some e) s).1.jobs)
    ∧ (e.isPermanent = false → job.attempts < job.maxAttempts →
        (∀ d, e.retryAfter = some d →
          { j with status := JobStatus.queued, lockedBy := none, lockedUntil := none,
                   lastError := some (truncErr e),
                   runAfter := s.time + (micros d).toNat }
            ∈ (finish w job (some e) s).1.jobs)
        ∧ (e.retryAfter = none →
          { j with status := JobStatus.queued, lockedBy := none, lockedUntil := none,
                   lastError := some (truncErr e),
                   runAfter := s.time
                     + (micros (min (goShiftLeft64 oneSecondNs (job.attempts - 1).toNat)
                                    fiveMinutesNs)).toNat }
            ∈ (finish w job (some e) s).1.jobs)) := by
  have hany : s.jobs.any (gateMatches w job.id) = true :=
    List.any_eq_true.mpr ⟨j, hmem, hgate⟩
  constructor
  · intro hdead
    have hcond : ((if e.isCanceled then false else e.isPermanent)
        || decide (job.maxAttempts ≤ job.attempts)) = true := by
      rw [hcancel]
      simp only [Bool.false_eq_true, if_false, Bool.or_eq_true, decide_eq_true_eq]
      exact hdead
    rw [finish_fail_dead_eq w job e s hlease hany hcond]
    exact List.mem_map.mpr ⟨j, hmem, by rw [if_pos hgate]⟩
  · intro hperm hatt
    have hcond : ((if e.isCanceled then false else e.isPermanent)
        || decide (job.maxAttempts ≤ job.attempts)) = false := by
      rw [hcancel, hperm]
      simp only [Bool.false_eq_true, if_false, Bool.false_or, decide_eq_false_iff_not, not_le]
      exact hatt
    constructor
    · intro d hd
      rw [finish_fail_requeue_eq w job e s hlease hany hcond]
      refine List.mem_map.mpr ⟨j, hmem, ?_⟩
      rw [if_pos hgate, hcancel, hd]
      rfl
    · intro hnone
      rw [finish_fail_requeue_eq w job e s hlease hany hcond]
      refine List.mem_map.mpr ⟨j, hmem, ?_⟩
      rw [if_pos hgate, hcancel, hnone]
      rw [show ((match (if false = true then some (0 : Int) else none) with
            | some d => d
            | none => defaultBackoff job.attempts) : Int) = defaultBackoff job.attempts from rfl]
      rw [defaultBackoff_eq_min]

/-- The concrete running job used by the C3 witness. -/
def c3job : Job :=
  { id := 4, orderingSeq := 1, runAfter := 0, status := JobStatus.running,
    attempts := 1, maxAttempts := 3, lockedBy := some 1, lockedUntil := some 100,
    startedAt := some 0, finishedAt := none, lastError := none }

/-- The concrete group state used by the C3 witness. -/
def c3state : GroupState :=
  { time := 0, glockedBy := some 1, glockedUntil := some 100, jobs := [c3job] }

/-- The concrete retryable error used by the C3 witness. -/
def c3err : RunError :=
  { msg := "boom", retryAfter := none, isPermanent := false, isCanceled := false }

/-- Witness for C3 at a concrete state: a first-of-three-attempts failure
without markers, whose disposition theorem applies with every hypothesis
discharged by computation. -/
theorem finish_failure_disposition_witness :
    groupLeaseHeld 1 c3state = true
    ∧ c3err.isCanceled = false
    ∧ c3job ∈ c3state.jobs
    ∧ gateMatches 1 c3job.id c3job = true
    ∧ ((c3err.isPermanent = true ∨ c3job.maxAttempts ≤ c3job.attempts →
        { c3job with status := JobStatus.dead, finishedAt := some c3state.time,
                      lastError := some (truncErr c3err), lockedUntil := none }
          ∈ (finish 1 c3job (some c3err) c3state).1.jobs)
      ∧ (c3err.isPermanent = false → c3job.attempts < c3job.maxAttempts →
          (∀ d, c3err.retryAfter = some d →
            { c3job with status := JobStatus.queued, lockedBy := none, lockedUntil := none,
                         lastError := some (truncErr c3err),
                         runAfter := c3state.time + (micros d).toNat }
              ∈ (finish 1 c3job (some c3err) c3state).1.jobs)
          ∧ (c3err.retryAfter = none →
            { c3job with status := JobStatus.queued, lockedBy := none, lockedUntil := none,
                         lastError := some (truncErr c3err),
                         runAfter := c3state.time
                           + (micros (min (goShiftLeft64 oneSecondNs (c3job.attempts - 1).toNat)
                                          fiveMinutesNs)).toNat }
              ∈ (finish 1 c3job (some c3err) c3state).1.jobs))) :=
  ⟨by decide, by decide, by decide, by decide,
    finish_failure_disposition 1 c3job c3err c3state c3job
      (by decide) (by decide) (by decide) (by decide)⟩

/-- The cancelled job of the C4 counterexample, on its final attempt. -/
def c4job : Job :=
  { id := 9, orderingSeq := 1, runAfter := 0, status := JobStatus.running,
    attempts := 25, maxAttempts := 25, lockedBy := some 1, lockedUntil := some 50,
    startedAt := some 0, finishedAt := none, lastError := none }

/-- The group state of the C4 counterexample. -/
def c4state : GroupState :=
  { time := 0, glockedBy := some 1, glockedUntil := some 50, jobs := [c4job] }

/-- The cancellation error of the C4 counterexample. -/
def c4err : RunError :=
  { msg := "context canceled", retryAfter := none, isPermanent := false, isCanceled := true }

/-- C4 counterexample: a job whose handler was cancelled while the attempts
recorded at claim time already reached max_attempts is finalized as dead,
not requeued: the cancellation handling clears only the permanent flag and
the explicit delay, not the attempts check. -/
theorem finish_canceled_goes_dead_counterexample :
    ((finish 1 c4job (some c4err) c4state).1.jobs.map Job.status) = [JobStatus.dead]
    ∧ (finish 1 c4job (some c4err) c4state).2 = FinOutcome.ok := by
  decide

/-- C4 amended: finalizing a cancelled handler run requeues the job with
zero delay (run_after equal to now), overriding any permanent or
retry-after marker, provided the attempts recorded at claim time are still
below max_attempts; when they are not, the cancelled job is moved to dead
like any other exhausted job. -/
theorem finish_canceled_disposition (w : Nat) (job : Job) (e : RunError) (s : GroupState) (j : Job)
    (hlease : groupLeaseHeld w s = true)
    (hcancel : e.isCanceled = true)
    (hmem : j ∈ s.jobs) (hgate : gateMatches w job.id j = true) :
    (job.attempts < job.maxAttempts →
      { j with status := JobStatus.queued, lockedBy := none, lockedUntil := none,
               lastError := some (truncErr e), runAfter := s.time }
        ∈ (finish w job (some e) s).1.jobs)
    ∧ (job.maxAttempts ≤ job.attempts →
      { j with status := JobStatus.dead, finishedAt := some s.time,
               lastError := some (truncErr e), lockedUntil := none }
        ∈ (finish w job (some e) s).1.jobs) := by
  have hany : s.jobs.any (gateMatches w job.id) = true :=
    List.any_eq_true.mpr ⟨j, hmem, hgate⟩
  constructor
  · intro hatt
    have hcond : ((if e.isCanceled then false else e.isPermanent)
        || decide (job.maxAttempts ≤ job.attempts)) = false := by
      rw [hcancel]
      simp only [if_true, Bool.false_or, decide_eq_false_iff_not, not_le]
      exact hatt
    rw [finish_fail_requeue_eq w job e s hlease hany hcond]
    refine List.mem_map.mpr ⟨j, hmem, ?_⟩
    rw [if_pos hgate, hcancel]
    rw [show ((match (if true = true then some (0 : Int) else e.retryAfter) with
          | some d => d
          | none => defaultBackoff job.attempts) : Int) = 0 from rfl]
    rw [show (micros 0).toNat = 0 from rfl, Nat.add_zero]
  · intro hatt
    have hcond : ((if e.isCanceled then false else e.isPermanent)
        || decide (job.maxAttempts ≤ job.attempts)) = true := by
      rw [hcancel]
      simp only [if_true, Bool.false_or, decide_eq_true_eq]
      exact hatt
    rw [finish_fail_dead_eq w job e s hlease hany hcond]
    exact List.mem_map.mpr ⟨j, hmem, by rw [if_pos hgate]⟩

/-- The cancelled job of the C4 witness, with retries left. -/
def c4wjob : Job :=
  { id := 6, orderingSeq := 2, runAfter := 0, status := JobStatus.running,
    attempts := 1, maxAttempts := 25, lockedBy := some 2, lockedUntil := some 80,
    startedAt := some 3, finishedAt := none, lastError := none }

/-- The group state of the C4 witness. -/
def c4wstate : GroupState :=
  { time := 3, glockedBy := some 2, glockedUntil := some 80, jobs := [c4wjob] }

/-- Witness for amended C4 at a concrete cancelled run with retries left:
the job is requeued with run_after equal to now. -/
theorem finish_canceled_disposition_witness :
    groupLeaseHeld 2 c4wstate = true
    ∧ c4err.isCanceled = true
    ∧ c4wjob ∈ c4wstate.jobs
    ∧ gateMatches 2 c4wjob.id c4wjob = true
    ∧ ((c4wjob.attempts < c4wjob.maxAttempts →
        { c4wjob with status := JobStatus.queued, lockedBy := none, lockedUntil := none,
                      lastError := some (truncErr c4err), runAfter := c4wstate.time }
          ∈ (finish 2 c4wjob (some c4err) c4wstate).1.jobs)
      ∧ (c4wjob.maxAttempts ≤ c4wjob.attempts →
        { c4wjob with status := JobStatus.dead, finishedAt := some c4wstate.time,
                      lastError := some (truncErr c4err), lockedUntil := none }
          ∈ (finish 2 c4wjob (some c4err) c4wstate).1.jobs)) :=
  ⟨by decide, by decide, by decide, by decide,
    finish_canceled_disposition 2 c4wjob c4err c4wstate c4wjob
      (by decide) (by decide) (by decide) (by decide)⟩

end Indexer.Jobqueue

namespace Indexer.Jobqueue

/-- The row filter of both claim queries: a job that is queued and whose
run_after is not in the future. -/
def runnableQueued (t : Nat) (j : Job) : Bool :=
  j.status == JobStatus.queued && decide (j.runAfter ≤ t)

/-- Worker.claimGroup restricted to one group: the group is a candidate
when it has a queued job with run_after at most now and its lock is null
or expired; a candidate gets locked_by this worker and locked_until now
plus the lease. Otherwise there is no work. -/
def claimGroup (w lease : Nat) (s : GroupState) : Option GroupState :=
  if s.jobs.any (runnableQueued s.time)
      && (match s.glockedUntil with
          | none => true
          | some u => decide (u < s.time)) then
    some { s with glockedBy := some w, glockedUntil := some (s.time + lease) }
  else none

/-- The SET clause of the claiming UPDATE of claimNextJobInGroup: the row
becomes running, attempts is incremented, the job lease is taken and
started_at is set to now. -/
def claimedJob (w lease t : Nat) (k : Job) : Job :=
  { k with status := JobStatus.running, attempts := k.attempts + 1,
           lockedBy := some w, lockedUntil := some (t + lease),
           startedAt := some t }

/-- Worker.claimNextJobInGroup: after re-checking the group lease, the
queued job with run_after at most now and the smallest ordering_seq is
claimed; none means either a lost lease or no runnable job. -/
def claimNextJobInGroup (w lease : Nat) (s : GroupState) : Option (GroupState × Job) :=
  if groupLeaseHeld w s then
    match (s.jobs.filter (runnableQueued s.time)).argmin Job.orderingSeq with
    | none => none
    | some j0 =>
      some ({ s with jobs := s.jobs.map (fun k =>
                if k.id == j0.id then claimedJob w lease s.time k else k) },
            claimedJob w lease s.time j0)
  else none

/-- The database clock moving forward between transactions. -/
def advance (d : Nat) (s : GroupState) : GroupState :=
  { s with time := s.time + d }

/-- The serial execution property claimed for a group: whenever two jobs
with ordered ordering_seq both ended succeeded or dead, the earlier one
finished strictly before the later one started. -/
def serialExecutionSpec (s : GroupState) : Bool :=
  s.jobs.all (fun j1 => s.jobs.all (fun j2 =>
    if j1.orderingSeq < j2.orderingSeq
        && (j1.status == JobStatus.succeeded || j1.status == JobStatus.dead)
        && (j2.status == JobStatus.succeeded || j2.status == JobStatus.dead) then
      match j1.finishedAt, j2.startedAt with
      | some f, some st => decide (f < st)
      | _, _ => false
    else true))

/-- First job of the C1 counterexample: smallest ordering_seq, but its
run_after lies 10 ticks in the future. -/
def c1job1 : Job :=
  { id := 1, orderingSeq := 1, runAfter := 10, status := JobStatus.queued,
    attempts := 0, maxAttempts := 25, lockedBy := none, lockedUntil := none,
    startedAt := none, finishedAt := none, lastError := none }

/-- Second job of the C1 counterexample: larger ordering_seq, runnable at
once. -/
def c1job2 : Job :=
  { id := 2, orderingSeq := 2, runAfter := 0, status := JobStatus.queued,
    attempts := 0, maxAttempts := 25, lockedBy := none, lockedUntil := none,
    startedAt := none, finishedAt := none, lastError := none }

/-- The initial state of the C1 counterexample trace. -/
def c1s0 : GroupState :=
  { time := 0, glockedBy := none, glockedUntil := none, jobs := [c1job1, c1job2] }

/-- The C1 counterexample trace, built only from the claim and finish
transitions of the code: one worker claims the group, claims and finishes
the only runnable job (the one with the larger ordering_seq), the clock
reaches the run_after of the smaller one, which is then claimed and
finished. -/
def c1trace : Option GroupState :=
  (claimGroup 7 100 c1s0).bind (fun s1 =>
    (claimNextJobInGroup 7 100 s1).bind (fun p =>
      let s2 := (finish 7 p.2 none p.1).1
      let s3 := advance 10 s2
      (claimNextJobInGroup 7 100 s3).bind (fun q =>
        some (finish 7 q.2 none q.1).1)))

/-- C1 counterexample: the trace completes with both jobs succeeded, yet
the job with the smaller ordering_seq finished at time 10 while the larger
one started at time 0, so the group did not execute in strictly increasing
ordering_seq order and the serial property fails. A job whose run_after is
in the future (initial schedule or retry backoff) is skipped by the claim
query and overtaken. -/
theorem group_serial_order_counterexample :
    (c1trace.map (fun s => s.jobs.map Job.status)) = some [JobStatus.succeeded, JobStatus.succeeded]
    ∧ (c1trace.map (fun s => s.jobs.map Job.finishedAt)) = some [some 10, some 0]
    ∧ (c1trace.map (fun s => s.jobs.map Job.startedAt)) = some [some 10, some 0]
    ∧ c1trace.map serialExecutionSpec = some false := by
  decide

/-- C1 amended: a successful job claim happens only while this worker
holds the group lease with locked_until not in the past, and it always
selects a queued job with run_after at most now whose ordering_seq is
minimal among all such runnable jobs of the group; the claimed row becomes
running with attempts incremented and started_at now. Jobs whose run_after
is still in the future are not protected by the ordering, as the
counterexample shows. -/
theorem claimNextJobInGroup_lease_and_min_seq (w lease : Nat) (s sNew : GroupState) (jNew : Job)
    (h : claimNextJobInGroup w lease s = some (sNew, jNew)) :
    s.glockedBy = some w
    ∧ (∃ u, s.glockedUntil = some u ∧ s.time ≤ u)
    ∧ ∃ j0, j0 ∈ s.jobs
        ∧ j0.status = JobStatus.queued
        ∧ j0.runAfter ≤ s.time
        ∧ (∀ k, k ∈ s.jobs → k.status = JobStatus.queued → k.runAfter ≤ s.time →
            j0.orderingSeq ≤ k.orderingSeq)
        ∧ jNew = claimedJob w lease s.time j0
        ∧ jNew.status = JobStatus.running
        ∧ jNew.attempts = j0.attempts + 1
        ∧ jNew.lockedBy = some w
        ∧ jNew.startedAt = some s.time
        ∧ sNew.jobs = s.jobs.map (fun k =>
            if k.id == j0.id then claimedJob w lease s.time k else k) := by
  unfold claimNextJobInGroup at h
  rcases hlease : groupLeaseHeld w s with _ | _
  · rw [hlease] at h
    simp at h
  · rw [hlease] at h
    simp only [if_true] at h
    have hby : s.glockedBy = some w := by
      unfold groupLeaseHeld at hlease
      rw [Bool.and_eq_true] at hlease
      exact eq_of_beq hlease.1
    have huntil : ∃ u, s.glockedUntil = some u ∧ s.time ≤ u := by
      unfold groupLeaseHeld at hlease
      rw [Bool.and_eq_true] at hlease
      have h2 := hlease.2
      rcases hu : s.glockedUntil with _ | u
      · rw [hu] at h2
        cases h2
      · rw [hu] at h2
        exact ⟨u, rfl, of_decide_eq_true h2⟩
    refine ⟨hby, huntil, ?_⟩
    rcases harg : (s.jobs.filter (runnableQueued s.time)).argmin Job.orderingSeq with _ | j0
    · rw [harg] at h
      cases h
    · rw [harg] at h
      injection h with h
      injection h with hs hj
      have hargmem : j0 ∈ (s.jobs.filter (runnableQueued s.time)).argmin Job.orderingSeq := by
        rw [harg]
        rfl
      have hjmem := List.mem_filter.mp (List.argmin_mem hargmem)
      have hrun := hjmem.2
      unfold runnableQueued at hrun
      rw [Bool.and_eq_true] at hrun
      refine ⟨j0, hjmem.1, eq_of_beq hrun.1, of_decide_eq_true hrun.2, ?_, hj.symm, ?_, ?_, ?_, ?_, ?_⟩
      · intro k hk hkq hkra
        have hkf : k ∈ s.jobs.filter (runnableQueued s.time) := by
          refine List.mem_filter.mpr ⟨hk, ?_⟩
          unfold runnableQueued
          rw [hkq]
          simp [hkra]
        exact List.le_of_mem_argmin hkf hargmem
      · rw [← hj]
        rfl
      · rw [← hj]
        rfl
      · rw [← hj]
        rfl
      · rw [← hj]
        rfl
      · rw [← hs]
end Indexer.Jobqueue

namespace Indexer.Jobqueue

/-- First queued job of the C1 witness group, with the smaller seq. -/
def c1wjob1 : Job :=
  { id := 1, orderingSeq := 5, runAfter := 0, status := JobStatus.queued,
    attempts := 0, maxAttempts := 25, lockedBy := none, lockedUntil := none,
    startedAt := none, finishedAt := none, lastError := none }

/-- Second queued job of the C1 witness group, with the larger seq. -/
def c1wjob2 : Job :=
  { id := 2, orderingSeq := 8, runAfter := 0, status := JobStatus.queued,
    attempts := 0, maxAttempts := 25, lockedBy := none, lockedUntil := none,
    startedAt := none, finishedAt := none, lastError := none }

/-- The C1 witness state: a group leased by worker 3 with two runnable
queued jobs. -/
def c1wstate : GroupState :=
  { time := 0, glockedBy := some 3, glockedUntil := some 40,
    jobs := [c1wjob1, c1wjob2] }

/-- The job returned by the claim in the C1 witness. -/
def c1wjNew : Job :=
  claimedJob 3 10 0 c1wjob1

/-- The state after the claim in the C1 witness. -/
def c1wsNew : GroupState :=
  { time := 0, glockedBy := some 3, glockedUntil := some 40,
    jobs := [c1wjNew, c1wjob2] }

/-- Witness for amended C1 at a concrete claim: worker 3 holds the lease
and the claim picks the queued runnable job with the smaller seq. -/
theorem claimNextJobInGroup_lease_and_min_seq_witness :
    claimNextJobInGroup 3 10 c1wstate = some (c1wsNew, c1wjNew)
    ∧ (c1wstate.glockedBy = some 3
      ∧ (∃ u, c1wstate.glockedUntil = some u ∧ c1wstate.time ≤ u)
      ∧ ∃ j0, j0 ∈ c1wstate.jobs
          ∧ j0.status = JobStatus.queued
          ∧ j0.runAfter ≤ c1wstate.time
          ∧ (∀ k, k ∈ c1wstate.jobs → k.status = JobStatus.queued →
              k.runAfter ≤ c1wstate.time → j0.orderingSeq ≤ k.orderingSeq)
          ∧ c1wjNew = claimedJob 3 10 c1wstate.time j0
          ∧ c1wjNew.status = JobStatus.running
          ∧ c1wjNew.attempts = j0.attempts + 1
          ∧ c1wjNew.lockedBy = some 3
          ∧ c1wjNew.startedAt = some c1wstate.time
          ∧ c1wsNew.jobs = c1wstate.jobs.map (fun k =>
              if k.id == j0.id then claimedJob 3 10 c1wstate.time k else k)) :=
  ⟨by decide, claimNextJobInGroup_lease_and_min_seq 3 10 c1wstate c1wsNew c1wjNew (by decide)⟩

end Indexer.Jobqueue

namespace Indexer.App

/-- resource.FieldConfig: a field name and its optional query search
flag. -/
structure FieldConfig where
  name : String
  search : Option Bool
deriving Repr

/-- resource.Config restricted to the parts the indexing handlers read:
the resource type name and its field configs. -/
structure Config where
  resource : String
  fields : List FieldConfig
deriving Repr

/-- App.resolveResourceConfig: a linear scan for the first config whose
resource equals the requested name; nil when absent. -/
def resolveResourceConfig (resources : List Config) (resourceName : String) : Option Config :=
  resources.find? (fun rc => rc.resource == resourceName)

/-- App.verifyResourceConfig: empty type or id are rejected, then the
config is resolved, with an unknown resource error when missing. -/
def verifyResourceConfig (resources : List Config) (resource resourceId : String) : Except String Config :=
  if resource == "" then Except.error "resource required"
  else if resourceId == "" then Except.error "resource_id required"
  else
    match resolveResourceConfig resources resource with
    | none => Except.error "unknown resource"
    | some r => Except.ok r

/-- A Go interface value as stored in a map of string to any. -/
inductive GoVal where
  | nullv
  | strv (s : String)
  | mapv (kvs : List (String × GoVal))
deriving Repr

/-- Indexing a possibly-nil Go map: a nil map or a missing key yields the
zero value nil. -/
def lookupGoMap (m : Option (List (String × GoVal))) (k : String) : GoVal :=
  match m with
  | none => GoVal.nullv
  | some kvs =>
    match kvs.find? (fun kv => kv.1 == k) with
    | some kv => kv.2
    | none => GoVal.nullv

/-- An unchecked Go type assertion to a map succeeds only on a map value;
anything else makes the assertion panic at run time. -/
def typeAssertMap (v : GoVal) : Option (List (String × GoVal)) :=
  match v with
  | GoVal.mapv kvs => some kvs
  | _ => none

/-- The run time panic message of an unchecked map assertion on nil. -/
def nilMapAssertMsg : String :=
  "interface conversion: interface is nil, not a map of string to any"

/-- The run time panic of calling .Fields on a nil config pointer. -/
def nilConfigDerefMsg : String :=
  "invalid memory address or nil pointer dereference"

/-- app.buildResourceDataFromMap: keep exactly the configured fields that
are present in the raw data. -/
def buildResourceDataFromMap (rawData : List (String × GoVal)) (fields : List FieldConfig) : List (String × GoVal) :=
  fields.foldl (fun result fc =>
    match rawData.find? (fun kv => kv.1 == fc.name) with
    | none => result
    | some kv => result ++ [(fc.name, kv.2)]) []

/-- A Go map assignment: replace the value under an existing key or append
the new binding. -/
def goMapSet (kvs : List (String × GoVal)) (k : String) (v : GoVal) : List (String × GoVal) :=
  if kvs.any (fun kv => kv.1 == k) then
    kvs.map (fun kv => if kv.1 == k then (k, v) else kv)
  else kvs ++ [(k, v)]

/-- How a run of handleAddRelation ends. -/
inductive AddRelationOutcome where
  | upserted (doc : List (String × GoVal))
  | skipped
  | failed (msg : String)
  | crashed (msg : String)
deriving Repr

/-- App.handleAddRelation, step by step: validate the parent against the
schema; ask the store whether the relation still exists (skipping with
success when it does not); fetch the child document from the search
backend; then, with no nil check, assert the fields entry of the document
to a map, project it through the child config of the schema, force the id,
and upsert it into the parent document array. The store answer and the
Get result are passed in as the values those calls returned. -/
def handleAddRelation (resources : List Config) (relationExistsAns : Bool)
    (esGet : Except String (Option (List (String × GoVal)))) (rel : Relation) : AddRelationOutcome :=
  match verifyResourceConfig resources rel.parent.type rel.parent.id with
  | Except.error m => AddRelationOutcome.failed m
  | Except.ok _ =>
    if !relationExistsAns then AddRelationOutcome.skipped
    else
      match esGet with
      | Except.error m => AddRelationOutcome.failed ("get child document: " ++ m)
      | Except.ok doc =>
        match typeAssertMap (lookupGoMap doc "fields") with
        | none => AddRelationOutcome.crashed nilMapAssertMsg
        | some fieldsMap =>
          match resolveResourceConfig resources rel.child.type with
          | none => AddRelationOutcome.crashed nilConfigDerefMsg
          | some childCfg =>
            AddRelationOutcome.upserted
              (goMapSet (buildResourceDataFromMap fieldsMap childCfg.fields) "id"
                (GoVal.strv rel.child.id))

/-- C10: when the relation still exists in the store but the child
document is absent from the search backend (Get returned nil for a 404),
handleAddRelation does not fall back to an id-only element: the unchecked
assertion on the nil document panics instead of returning an error. -/
theorem handleAddRelation_nil_doc_panics (resources : List Config) (rel : Relation)
    (htype : rel.parent.type ≠ "")
    (hid : rel.parent.id ≠ "")
    (hcfg : (resolveResourceConfig resources rel.parent.type).isSome = true) :
    handleAddRelation resources true (Except.ok none) rel
      = AddRelationOutcome.crashed nilMapAssertMsg := by
  have h1 : (rel.parent.type == "") = false := beq_eq_false_iff_ne.mpr htype
  have h2 : (rel.parent.id == "") = false := beq_eq_false_iff_ne.mpr hid
  obtain ⟨c, hc⟩ := Option.isSome_iff_exists.mp hcfg
  unfold handleAddRelation verifyResourceConfig
  rw [hc]
  simp only [h1, h2, Bool.false_eq_true, if_false]
  rfl

/-- Witness for C10: a concrete schema with resource a, a relation from
a 1 to b 2 still present in the store, and a 404 child document. -/
theorem handleAddRelation_nil_doc_panics_witness :
    (⟨⟨"a", "1"⟩, ⟨"b", "2"⟩⟩ : Relation).parent.type ≠ ""
    ∧ (⟨⟨"a", "1"⟩, ⟨"b", "2"⟩⟩ : Relation).parent.id ≠ ""
    ∧ (resolveResourceConfig [{ resource := "a", fields := [{ name := "f1", search := none }] }]
        (⟨⟨"a", "1"⟩, ⟨"b", "2"⟩⟩ : Relation).parent.type).isSome = true
    ∧ handleAddRelation [{ resource := "a", fields := [{ name := "f1", search := none }] }]
        true (Except.ok none) ⟨⟨"a", "1"⟩, ⟨"b", "2"⟩⟩
        = AddRelationOutcome.crashed nilMapAssertMsg :=
  ⟨by decide, by decide, rfl,
    handleAddRelation_nil_doc_panics
      [{ resource := "a", fields := [{ name := "f1", search := none }] }]
      ⟨⟨"a", "1"⟩, ⟨"b", "2"⟩⟩ (by decide) (by decide) rfl⟩

end Indexer.App
